import Mathlib

/-!
Verification of the Simple-LAS-viewer point-cloud pipeline: a shallow
embedding of the LAS header reader, the point-record decoder with
subsampling and color inference, the geodetic projector, the LAZ
decompression reassembly, its resource cleanup paths, and the slicer
state machine, together with proofs of the documented properties.

Byte buffers are modelled as `List Nat` (each entry one byte); JS
`DataView` little-endian reads become arithmetic over those bytes.
JS IEEE-754 doubles are modelled as exact rationals `ℚ`; transcendental
values the code obtains from `Math.cos` enter as rational parameters.
-/

namespace LASViewer

/-- Byte at index `i` of a buffer (JS `Uint8Array`/`DataView.getUint8`);
out-of-range reads default to 0 and are only used under in-bounds
hypotheses. -/
def byteAt (buf : List Nat) (i : Nat) : Nat := buf.getD i 0

/-- Little-endian 16-bit read, `DataView.getUint16(i, true)`. -/
def readU16 (buf : List Nat) (i : Nat) : Nat :=
  byteAt buf i + 256 * byteAt buf (i + 1)

/-- Little-endian 32-bit read, `DataView.getUint32(i, true)`. -/
def readU32 (buf : List Nat) (i : Nat) : Nat :=
  byteAt buf i + 256 * byteAt buf (i + 1) + 65536 * byteAt buf (i + 2) +
    16777216 * byteAt buf (i + 3)

/-- Little-endian signed 32-bit read, `DataView.getInt32(i, true)`:
the unsigned value reinterpreted in two's complement. -/
def readI32 (buf : List Nat) (i : Nat) : ℤ :=
  let u := readU32 buf i
  if u < 2147483648 then (u : ℤ) else (u : ℤ) - 4294967296

/-- Extended 64-bit point count of a LAS 1.4 header: low uint32 at
offset 247 plus high uint32 at offset 251 times 2^32 (`low + high * 0x100000000`). -/
def extCount64 (buf : List Nat) : Nat :=
  readU32 buf 247 + readU32 buf 251 * 4294967296

/-- Point count resolved by `LASParser.parseHeader`: start from the
legacy uint32 at offset 107; when versionMajor ≥ 1, versionMinor ≥ 4 and
headerSize ≥ 375, compute the 64-bit count and let it win if nonzero. -/
def parseHeaderPointCount (buf : List Nat) : Nat :=
  let versionMajor := byteAt buf 24
  let versionMinor := byteAt buf 25
  let headerSize := readU16 buf 94
  let legacyNumberOfPoints := readU32 buf 107
  if 1 ≤ versionMajor ∧ 4 ≤ versionMinor ∧ 375 ≤ headerSize then
    let count64 := readU32 buf 247 + readU32 buf 251 * 4294967296
    if 0 < count64 then count64 else legacyNumberOfPoints
  else legacyNumberOfPoints

/-- Point count resolved by `readLazHeader` in the LAZ decompressor:
the same fields, the same rule, written out independently of
`parseHeaderPointCount` because the source duplicates the logic. -/
def lazHeaderPointCount (buf : List Nat) : Nat :=
  let versionMajor := byteAt buf 24
  let versionMinor := byteAt buf 25
  let headerSize := readU16 buf 94
  let legacyNumberOfPoints := readU32 buf 107
  if 1 ≤ versionMajor ∧ 4 ≤ versionMinor ∧ 375 ≤ headerSize then
    let count64 := readU32 buf 247 + readU32 buf 251 * 4294967296
    if 0 < count64 then count64 else legacyNumberOfPoints
  else legacyNumberOfPoints

/-- Concrete 375-byte LAS 1.4 header whose legacy count (5) and 64-bit
count (7) differ: version 1.4 at bytes 24/25, headerSize 375 at 94/95,
legacy count at 107, extended count at 247. -/
def c1buf : List Nat :=
  ((((((List.replicate 375 0).set 24 1).set 25 4).set 94 119).set 95 1).set
    107 5).set 247 7

/-- Concrete truncated file: a valid `LASF` signature, point data at
offset 227, 20-byte records, legacy count 5, but only 278 bytes of
buffer — records 0 and 1 fit (offsets 227 and 247, needing 12 bytes
each), record 2 at offset 267 does not (267 + 12 > 278). -/
def c8buf : List Nat :=
  ((((((List.replicate 278 0).set 0 76).set 1 65).set 2 83).set 3 70).set
    96 227).set 105 20 |>.set 107 5

/-- Elevation gradient `elevationColor(t)`: clamp `t` to [0,1], then a
four-segment piecewise-linear blue→cyan→green→yellow→red ramp. -/
def elevationColor (t : ℚ) : ℚ × ℚ × ℚ :=
  let s := max 0 (min 1 t)
  if s < 1/4 then (0, s * 4, 1)
  else if s < 1/2 then (0, 1, 1 - (s - 1/4) * 4)
  else if s < 3/4 then ((s - 1/2) * 4, 1, 0)
  else (1, 1 - (s - 3/4) * 4, 0)

/-- RGB sub-offset per point format, from the `switch (format)` in
`LASParser.parsePoints`: `some off` encodes `hasRGB = true` with
`rgbOffset = off`, `none` encodes `hasRGB = false`. -/
def formatRGBOffset : Nat → Option Nat
  | 2 => some 20
  | 3 => some 28
  | 5 => some 28
  | 7 => some 30
  | 8 => some 30
  | 10 => some 30
  | _ => none

/-- Color decision for one sampled point, from `LASParser.parsePoints`
lines 284–316: r,g,b start at 0.5; when a color block is present and in
bounds, read the three uint16 channels — values above 255 normalize as
16-bit, else any nonzero value normalizes as 8-bit, else the 0.5
defaults stand; afterwards an all-zero r,g,b triple is replaced by the
elevation gradient at `tz`; without a readable color block the gradient
is used directly. -/
def pointColor (buf : List Nat) (rgbInfo : Option Nat) (offset : Nat)
    (tz : ℚ) : ℚ × ℚ × ℚ :=
  match rgbInfo with
  | some rgbOffset =>
    if offset + rgbOffset + 6 ≤ buf.length then
      let red := readU16 buf (offset + rgbOffset)
      let green := readU16 buf (offset + rgbOffset + 2)
      let blue := readU16 buf (offset + rgbOffset + 4)
      let rgb : ℚ × ℚ × ℚ :=
        if 255 < red ∨ 255 < green ∨ 255 < blue then
          ((red : ℚ) / 65535, (green : ℚ) / 65535, (blue : ℚ) / 65535)
        else if 0 < red ∨ 0 < green ∨ 0 < blue then
          ((red : ℚ) / 255, (green : ℚ) / 255, (blue : ℚ) / 255)
        else (1/2, 1/2, 1/2)
      if rgb.1 = 0 ∧ rgb.2.1 = 0 ∧ rgb.2.2 = 0 then elevationColor tz else rgb
    else elevationColor tz
  | none => elevationColor tz

/-- Ceiling division, the value `Math.ceil(n / m)` takes on natural
inputs with `0 < m`. -/
def ceilDiv (n m : Nat) : Nat := (n + m - 1) / m

/-- Subsampling stride from `LASParser.parsePoints`:
`totalPoints > maxPoints ? Math.ceil(totalPoints / maxPoints) : 1`. -/
def sampleStep (totalPoints maxPoints : Nat) : Nat :=
  if maxPoints < totalPoints then ceilDiv totalPoints maxPoints else 1

/-- Fuel-indexed unfolding of the JS loop
`for (let i = 0; i < total; i += step)`, recording the visited indices;
`total` iterations of fuel suffice whenever `1 ≤ step`. -/
def forLoopIndices : Nat → Nat → Nat → Nat → List Nat
  | 0, _, _, _ => []
  | fuel + 1, i, step, total =>
    if i < total then i :: forLoopIndices fuel (i + step) step total else []

/-- Indices visited by the sampling loop starting at 0. -/
def sampledIndices (total step : Nat) : List Nat :=
  forLoopIndices total 0 step total

/-- Header fields `LASParser.parsePoints` consumes. The six IEEE-754
float64 scale/offset fields (bytes 131–178 of the file) are carried as
exact rationals. -/
structure ParsedHeader where
  offsetToPointData : Nat
  pointDataRecordFormat : Nat
  pointDataRecordLength : Nat
  numberOfPoints : Nat
  scaleX : ℚ
  scaleY : ℚ
  scaleZ : ℚ
  offsetX : ℚ
  offsetY : ℚ
  offsetZ : ℚ

/-- One retained point after the reading loop: de-quantized geodetic
coordinates `raw * scale + offset` and the record's byte offset. -/
structure RawPoint where
  lon : ℚ
  lat : ℚ
  z : ℚ
  offset : Nat
deriving DecidableEq

/-- Decode of the sampled record at index `i`: three little-endian
int32 reads at `offsetToPointData + i * recordLen`, then scale/offset
application. -/
def decodeRawPoint (buf : List Nat) (h : ParsedHeader) (i : Nat) : RawPoint :=
  let offset := h.offsetToPointData + i * h.pointDataRecordLength
  { lon := (readI32 buf offset : ℚ) * h.scaleX + h.offsetX
    lat := (readI32 buf (offset + 4) : ℚ) * h.scaleY + h.offsetY
    z := (readI32 buf (offset + 8) : ℚ) * h.scaleZ + h.offsetZ
    offset := offset }

/-- Indices the reading loop actually processes: the sampled indices up
to (excluding) the first whose record offset plus the 12 required
coordinate bytes exceeds the buffer — the `break` at
`if (offset + 12 > this.buffer.byteLength) break`. -/
def rawPointIndices (buf : List Nat) (h : ParsedHeader) (maxPoints : Nat) :
    List Nat :=
  (sampledIndices h.numberOfPoints
    (sampleStep h.numberOfPoints maxPoints)).takeWhile
    (fun i =>
      decide (h.offsetToPointData + i * h.pointDataRecordLength + 12 ≤ buf.length))

/-- Points retained by the reading loop. -/
def rawPoints (buf : List Nat) (h : ParsedHeader) (maxPoints : Nat) :
    List RawPoint :=
  (rawPointIndices buf h maxPoints).map (decodeRawPoint buf h)

/-- Minimum of a list, matching the JS fold seeded with `Infinity`: on a
nonempty list, the fold of `min` from the first element (the empty case
returns 0 and is never used by the theorems). -/
def listMin : List ℚ → ℚ
  | [] => 0
  | x :: xs => xs.foldl min x

/-- Maximum of a list, matching the JS fold seeded with `-Infinity`. -/
def listMax : List ℚ → ℚ
  | [] => 0
  | x :: xs => xs.foldl max x

/-- Longitude midpoint `(minLon + maxLon) / 2`, the `centerLon` the
parser subtracts. -/
def centerLonOf (pts : List RawPoint) : ℚ :=
  (listMin (pts.map RawPoint.lon) + listMax (pts.map RawPoint.lon)) / 2

/-- Latitude midpoint `(minLat + maxLat) / 2`. -/
def centerLatOf (pts : List RawPoint) : ℚ :=
  (listMin (pts.map RawPoint.lat) + listMax (pts.map RawPoint.lat)) / 2

/-- Elevation midpoint `(minZ + maxZ) / 2`. -/
def centerZOf (pts : List RawPoint) : ℚ :=
  (listMin (pts.map RawPoint.z) + listMax (pts.map RawPoint.z)) / 2

/-- Minimum elevation of the retained points. -/
def minZOf (pts : List RawPoint) : ℚ := listMin (pts.map RawPoint.z)

/-- Elevation normalization denominator `maxZ - minZ || 1`: the range,
or 1 when the range is zero. -/
def zRangeOf (pts : List RawPoint) : ℚ :=
  let d := listMax (pts.map RawPoint.z) - listMin (pts.map RawPoint.z)
  if d = 0 then 1 else d

/-- Geodetic projection of the retained points, from the second loop of
`LASParser.parsePoints`: East `(lon - centerLon) * 111320 * cos(centerLat
in radians)`, North `(lat - centerLat) * 111320`, Up `z - centerZ`.
`cosCenterLat` carries the value of `Math.cos(centerLat * Math.PI / 180)`
as an exact rational. -/
def projectPoints (pts : List RawPoint) (cosCenterLat : ℚ) :
    List (ℚ × ℚ × ℚ) :=
  let centerLon := centerLonOf pts
  let centerLat := centerLatOf pts
  let centerZ := centerZOf pts
  let metersPerDegreeLat : ℚ := 111320
  let metersPerDegreeLon : ℚ := 111320 * cosCenterLat
  pts.map fun pt =>
    ((pt.lon - centerLon) * metersPerDegreeLon,
     (pt.lat - centerLat) * metersPerDegreeLat,
     pt.z - centerZ)

/-- Color the second loop assigns to the retained point `p`, given the
whole retained set (for the elevation normalization). -/
def pointColorAt (buf : List Nat) (h : ParsedHeader) (pts : List RawPoint)
    (p : RawPoint) : ℚ × ℚ × ℚ :=
  pointColor buf (formatRGBOffset h.pointDataRecordFormat) p.offset
    ((p.z - minZOf pts) / zRangeOf pts)

/-- Colors of all retained points in record order. -/
def pointColors (buf : List Nat) (h : ParsedHeader) (maxPoints : Nat) :
    List (ℚ × ℚ × ℚ) :=
  let pts := rawPoints buf h maxPoints
  pts.map (pointColorAt buf h pts)

/-- Flattened positions buffer (the `Float32Array(numPoints * 3)` of
positions, written three entries per point). -/
def parsePositions (buf : List Nat) (h : ParsedHeader) (maxPoints : Nat)
    (cosCenterLat : ℚ) : List ℚ :=
  (projectPoints (rawPoints buf h maxPoints) cosCenterLat).flatMap
    fun v => [v.1, v.2.1, v.2.2]

/-- Flattened colors buffer (the `Float32Array(numPoints * 3)` of
colors). -/
def parseColors (buf : List Nat) (h : ParsedHeader) (maxPoints : Nat) :
    List ℚ :=
  (pointColors buf h maxPoints).flatMap fun c => [c.1, c.2.1, c.2.2]

/-- The `loadedPoints` header field: number of retained points. -/
def loadedPoints (buf : List Nat) (h : ParsedHeader) (maxPoints : Nat) : Nat :=
  (rawPoints buf h maxPoints).length

/-- Signature check: bytes [0,4) must spell `LASF` (76, 65, 83, 70). -/
def checkSignature (buf : List Nat) : Bool :=
  decide (byteAt buf 0 = 76 ∧ byteAt buf 1 = 65 ∧ byteAt buf 2 = 83 ∧
    byteAt buf 3 = 70)

/-- Header assembled by `LASParser.parseHeader` from the fixed offsets;
the float64 scale/offset values enter as rational parameters. -/
def parseHeaderOf (buf : List Nat) (sx sy sz ox oy oz : ℚ) : ParsedHeader :=
  { offsetToPointData := readU32 buf 96
    pointDataRecordFormat := byteAt buf 104
    pointDataRecordLength := readU16 buf 105
    numberOfPoints := parseHeaderPointCount buf
    scaleX := sx, scaleY := sy, scaleZ := sz
    offsetX := ox, offsetY := oy, offsetZ := oz }

/-- Whole-file parse `LASParser.parse`: the signature mismatch is the
only throw; otherwise the positions/colors buffers are produced. -/
def parseLAS (buf : List Nat) (sx sy sz ox oy oz : ℚ) (maxPoints : Nat)
    (cosCenterLat : ℚ) : Except String (List ℚ × List ℚ) :=
  if checkSignature buf then
    let h := parseHeaderOf buf sx sy sz ox oy oz
    .ok (parsePositions buf h maxPoints cosCenterLat, parseColors buf h maxPoints)
  else .error "Invalid LAS file signature"

/-- Bulk byte copy `outputView.set(data, pos)` on an output buffer
modelled as an index→byte function. -/
def writeBytes (out : Nat → Nat) (pos : Nat) (data : List Nat) : Nat → Nat :=
  fun j => if pos ≤ j ∧ j < pos + data.length then data.getD (j - pos) 0 else out j

/-- The decompression loop after `k` iterations: record `i` is copied to
byte offset `offsetToPointData + i * pointLength`. -/
def writePointRecords (base : Nat → Nat) (off len : Nat)
    (records : Nat → List Nat) : Nat → (Nat → Nat)
  | 0 => base
  | k + 1 =>
    writeBytes (writePointRecords base off len records k) (off + k * len)
      (records k)

/-- Output buffer of `decompressLaz` on a successful run: a zeroed
buffer of size `offsetToPointData + pointCount * pointLength`, the first
`offsetToPointData` input bytes copied in, the format byte at 104
replaced by `format & 0x3F`, then each engine-decoded record copied at
its slot. `pointCount`, `pointLength` and the per-record bytes come from
the external laz-perf engine (`getCount`, `getPointLength`, `getPoint`)
and are abstract parameters. -/
def decompressLazBytes (buf : List Nat) (pointCount pointLength : Nat)
    (records : Nat → List Nat) : Nat → Nat :=
  let off := readU32 buf 96
  let withHeader := writeBytes (fun _ => 0) 0 (buf.take off)
  let cleared := fun j =>
    if j = 104 then withHeader 104 &&& 63 else withHeader j
  writePointRecords cleared off pointLength records pointCount

/-- Resource bookkeeping of one `decompressLaz` run. -/
structure LazCleanup where
  filePtrFreed : Bool
  handleDeleted : Bool
  pointPtrAllocated : Bool
  pointPtrFreed : Bool
  succeeded : Bool

/-- Control-flow trace of `decompressLaz` (part_000 lines 133–211):
`_malloc(filePtr)` always happens; inside `try`, `laszip.open` either
throws (`openOk = false`) or the per-point loop runs, with
`laszip.getPoint` throwing at iteration `k` when `failAt = some k` with
`k < pointCount`; `_free(pointPtr)` sits after the loop inside the
`try`, while the `finally` only runs `laszip.delete()` and
`_free(filePtr)`. -/
def decompressLazCleanup (openOk : Bool) (pointCount : Nat)
    (failAt : Option Nat) : LazCleanup :=
  if openOk then
    match failAt with
    | some k =>
      if k < pointCount then
        { filePtrFreed := true
          handleDeleted := true
          pointPtrAllocated := true
          pointPtrFreed := false
          succeeded := false }
      else
        { filePtrFreed := true
          handleDeleted := true
          pointPtrAllocated := true
          pointPtrFreed := true
          succeeded := true }
    | none =>
      { filePtrFreed := true
        handleDeleted := true
        pointPtrAllocated := true
        pointPtrFreed := true
        succeeded := true }
  else
    { filePtrFreed := true, handleDeleted := true,
      pointPtrAllocated := false, pointPtrFreed := false,
      succeeded := false }

/-- Per-axis percentage range of the slicer (slider values are
`parseInt` results, hence integers). -/
structure SliceRange where
  min : ℤ
  max : ℤ
deriving DecidableEq

/-- World-space per-axis bounds of the slicer. -/
structure SliceBounds where
  min : ℚ
  max : ℚ

/-- Slicer state held by `useSlicer`'s reducer. -/
structure SlicerState where
  enabled : Bool
  x : SliceRange
  y : SliceRange
  z : SliceRange
  boundsX : SliceBounds
  boundsY : SliceBounds
  boundsZ : SliceBounds

/-- The reducer's `initialState`. -/
def initialState : SlicerState :=
  { enabled := false
    x := ⟨0, 100⟩, y := ⟨0, 100⟩, z := ⟨0, 100⟩
    boundsX := ⟨0, 100⟩, boundsY := ⟨0, 100⟩, boundsZ := ⟨0, 100⟩ }

/-- Actions of `slicerReducer`. -/
inductive SlicerAction where
  | setEnabled (b : Bool)
  | setX (r : SliceRange)
  | setY (r : SliceRange)
  | setZ (r : SliceRange)
  | setBounds (bX bY bZ : SliceBounds)
  | resetRanges
  | resetAll
  | initBounds (bX bY bZ : SliceBounds)

/-- The `slicerReducer` switch: range payloads are stored verbatim. -/
def slicerReducer (state : SlicerState) : SlicerAction → SlicerState
  | .setEnabled b => { state with enabled := b }
  | .setX r => { state with x := r }
  | .setY r => { state with y := r }
  | .setZ r => { state with z := r }
  | .setBounds bX bY bZ =>
    { state with boundsX := bX, boundsY := bY, boundsZ := bZ }
  | .resetRanges =>
    { state with x := ⟨0, 100⟩, y := ⟨0, 100⟩, z := ⟨0, 100⟩ }
  | .resetAll =>
    { initialState with
      boundsX := state.boundsX
      boundsY := state.boundsY
      boundsZ := state.boundsZ }
  | .initBounds bX bY bZ =>
    { initialState with boundsX := bX, boundsY := bY, boundsZ := bZ }

/-- Min-slider handler in `SlicerControls`:
`{ ...range, min: Math.min(value, range.max - 1) }`. -/
def sliderMinUpdate (range : SliceRange) (value : ℤ) : SliceRange :=
  ⟨min value (range.max - 1), range.max⟩

/-- Max-slider handler in `SlicerControls`:
`{ ...range, max: Math.max(value, range.min + 1) }`. -/
def sliderMaxUpdate (range : SliceRange) (value : ℤ) : SliceRange :=
  ⟨range.min, max value (range.min + 1)⟩

/-- Slice-state updates as the UI issues them: slider writes go through
the clamping handlers before being dispatched to the reducer; the other
actions are dispatched directly. -/
inductive SliceEvent where
  | dragXMin (v : ℤ)
  | dragXMax (v : ℤ)
  | dragYMin (v : ℤ)
  | dragYMax (v : ℤ)
  | dragZMin (v : ℤ)
  | dragZMax (v : ℤ)
  | toggle (b : Bool)
  | setBounds (bX bY bZ : SliceBounds)
  | resetRanges
  | resetAll
  | initBounds (bX bY bZ : SliceBounds)

/-- One slice-state update: handler clamping composed with the reducer. -/
def applySliceEvent (s : SlicerState) : SliceEvent → SlicerState
  | .dragXMin v => slicerReducer s (.setX (sliderMinUpdate s.x v))
  | .dragXMax v => slicerReducer s (.setX (sliderMaxUpdate s.x v))
  | .dragYMin v => slicerReducer s (.setY (sliderMinUpdate s.y v))
  | .dragYMax v => slicerReducer s (.setY (sliderMaxUpdate s.y v))
  | .dragZMin v => slicerReducer s (.setZ (sliderMinUpdate s.z v))
  | .dragZMax v => slicerReducer s (.setZ (sliderMaxUpdate s.z v))
  | .toggle b => slicerReducer s (.setEnabled b)
  | .setBounds bX bY bZ => slicerReducer s (.setBounds bX bY bZ)
  | .resetRanges => slicerReducer s .resetRanges
  | .resetAll => slicerReducer s .resetAll
  | .initBounds bX bY bZ => slicerReducer s (.initBounds bX bY bZ)

/-- Every axis range satisfies `min < max`. -/
def rangesValid (s : SlicerState) : Prop :=
  s.x.min < s.x.max ∧ s.y.min < s.y.max ∧ s.z.min < s.z.max

/-- World-space membership test of one point in `applySlice`'s filter
loop: rotate local X/Y by the data rotation (`cosR`/`sinR` carry the
cosine and sine values) and compare against all three world bounds. -/
def insideSlice (cosR sinR xMin xMax yMin yMax zMin zMax : ℚ)
    (p : ℚ × ℚ × ℚ) : Bool :=
  let worldX := p.1 * cosR - p.2.1 * sinR
  let worldY := p.1 * sinR + p.2.1 * cosR
  let worldZ := p.2.2
  decide (xMin ≤ worldX ∧ worldX ≤ xMax ∧ yMin ≤ worldY ∧ worldY ≤ yMax ∧
    zMin ≤ worldZ ∧ worldZ ≤ zMax)

/-- Filter pass of `applySlice` (slicer enabled): retained points keep
their local coordinates; colors are the original color or the solid
override. The flattened JS arrays of length `3n` are modelled as lists
of `n` triples. -/
def applySliceFilter (origPos origCol : List (ℚ × ℚ × ℚ))
    (cosR sinR xMin xMax yMin yMax zMin zMax : ℚ)
    (solid : Option (ℚ × ℚ × ℚ)) :
    List (ℚ × ℚ × ℚ) × List (ℚ × ℚ × ℚ) :=
  let kept := (origPos.zip origCol).filter fun pc =>
    insideSlice cosR sinR xMin xMax yMin yMax zMin zMax pc.1
  (kept.map Prod.fst,
   kept.map fun pc => match solid with | some c => c | none => pc.2)

/-- Restore pass of `applySlice` (slicer disabled): the full original
positions with either the original colors or a solid fill of
`originalCount` entries. -/
def applySliceRestore (origPos origCol : List (ℚ × ℚ × ℚ))
    (solid : Option (ℚ × ℚ × ℚ)) :
    List (ℚ × ℚ × ℚ) × List (ℚ × ℚ × ℚ) :=
  (origPos,
   match solid with
   | none => origCol
   | some c => List.replicate origPos.length c)

end LASViewer

namespace LASViewer

/-- Claim C1: both header readers resolve the point count by the same
rule — the 64-bit extended field (low at 247 + high at 251 · 2^32) wins
whenever versionMajor ≥ 1, versionMinor ≥ 4, headerSize ≥ 375 and the
64-bit value is nonzero, even when it differs from the legacy field;
otherwise the legacy uint32 at offset 107 is used. -/
theorem pointCountResolution_c1 (buf : List Nat) :
    lazHeaderPointCount buf = parseHeaderPointCount buf ∧
    ((1 ≤ byteAt buf 24 ∧ 4 ≤ byteAt buf 25 ∧ 375 ≤ readU16 buf 94 ∧
        0 < extCount64 buf) →
      parseHeaderPointCount buf = extCount64 buf) ∧
    (¬(1 ≤ byteAt buf 24 ∧ 4 ≤ byteAt buf 25 ∧ 375 ≤ readU16 buf 94 ∧
        0 < extCount64 buf) →
      parseHeaderPointCount buf = readU32 buf 107) := by
  refine ⟨rfl, ?_, ?_⟩
  · rintro ⟨h1, h2, h3, h4⟩
    simp only [extCount64] at h4
    simp only [parseHeaderPointCount, extCount64]
    rw [if_pos ⟨h1, h2, h3⟩, if_pos h4]
  · intro h
    simp only [parseHeaderPointCount, extCount64] at *
    by_cases hc : 1 ≤ byteAt buf 24 ∧ 4 ≤ byteAt buf 25 ∧ 375 ≤ readU16 buf 94
    · rw [if_pos hc]
      have h4 : ¬ 0 < readU32 buf 247 + readU32 buf 251 * 4294967296 := by
        intro hlt; exact h ⟨hc.1, hc.2.1, hc.2.2, hlt⟩
      rw [if_neg h4]
    · rw [if_neg hc]

/-- Witness for C1 at a concrete header where the two count fields
differ: the extended value 7 wins over the legacy value 5 in both
readers. -/
theorem pointCountResolution_c1_witness :
    parseHeaderPointCount c1buf = 7 ∧ lazHeaderPointCount c1buf = 7 ∧
    readU32 c1buf 107 = 5 := by
  have h := pointCountResolution_c1 c1buf
  have h2 : parseHeaderPointCount c1buf = extCount64 c1buf :=
    h.2.1 (by decide)
  refine ⟨?_, ?_, by decide⟩
  · rw [h2]; decide
  · rw [h.1, h2]; decide

theorem length_flatMap_triple (l : List (ℚ × ℚ × ℚ)) :
    (l.flatMap fun v => [v.1, v.2.1, v.2.2]).length = 3 * l.length := by
  induction l with
  | nil => simp
  | cons x xs ih =>
    simp only [List.flatMap_cons, List.length_append, ih, List.length_cons]
    simp; omega

/-- Claim C2 (refuted): the decoder leaves an all-black color block at
the default gray (0.5, 0.5, 0.5) instead of the elevation gradient. The
`r === 0 && g === 0 && b === 0` fallback in the source is unreachable:
the 16-bit branch requires a channel above 255 and the 8-bit branch a
nonzero channel, so neither can yield an all-zero triple, and the
all-zero case keeps the 0.5 initializers. A format-2 record at offset 0
of a 26-byte all-zero buffer (all three channels zero, normalized
elevation 0) evaluates to gray, not `elevationColor 0 = (0,0,1)`. -/
theorem allBlackFallback_c2 :
    pointColor (List.replicate 26 0) (some 20) 0 0 = (1/2, 1/2, 1/2) ∧
    elevationColor 0 = (0, 0, 1) ∧
    pointColor (List.replicate 26 0) (some 20) 0 0 ≠ elevationColor 0 := by
  refine ⟨by norm_num [pointColor, readU16, byteAt], by norm_num [elevationColor],
    by norm_num [pointColor, readU16, byteAt, elevationColor]⟩

/-- Claim C7 (refuted): when the engine's `getPoint` throws mid-stream
(here at point index 0 of a 1-point file), the staging buffer
`pointPtr` has been allocated but is never freed — `_free(pointPtr)`
lies on the success path inside the `try`, while the `finally` block
only deletes the engine handle and frees the copied file buffer. -/
theorem decompressionLeak_c7 :
    (decompressLazCleanup true 1 (some 0)).pointPtrAllocated = true ∧
    (decompressLazCleanup true 1 (some 0)).pointPtrFreed = false ∧
    (decompressLazCleanup true 1 (some 0)).filePtrFreed = true ∧
    (decompressLazCleanup true 1 (some 0)).handleDeleted = true := by
  refine ⟨rfl, rfl, rfl, rfl⟩

/-- Claim C6: every slice-state update issued through the UI — slider
writes clamped by the handlers to a 1-unit gap before dispatch, plus
the reducer's direct actions — preserves `min < max` on all three axis
ranges. -/
theorem sliceRangeInvariant_c6 (s : SlicerState) (e : SliceEvent)
    (hs : rangesValid s) : rangesValid (applySliceEvent s e) := by
  obtain ⟨hx ,hy, hz⟩ := hs
  cases e <;>
    simp only [applySliceEvent, slicerReducer, sliderMinUpdate, sliderMaxUpdate,
      rangesValid, initialState] <;>
    refine ⟨?_, ?_, ?_⟩ <;> omega

/-- Witness for C6: from the initial state, a min-slider write of 500
(far past the max bound 100) still leaves every axis range with
`min < max`. -/
theorem sliceRangeInvariant_c6_witness :
    rangesValid (applySliceEvent initialState (SliceEvent.dragXMin 500)) :=
  sliceRangeInvariant_c6 initialState (SliceEvent.dragXMin 500)
    ⟨by decide, by decide, by decide⟩

/-- Claim C10: the parser emits flattened position and color buffers of
exactly `3 * loadedPoints` entries each, and both slicer recomputes —
the filter pass and the full restore — produce position and color
buffers with equal point counts (the restore needs the original buffers
parallel, which the parser part guarantees). -/
theorem parallelBuffers_c10 (buf : List Nat) (h : ParsedHeader)
    (maxPoints : Nat) (q : ℚ) (origPos origCol : List (ℚ × ℚ × ℚ))
    (hpar : origCol.length = origPos.length)
    (cosR sinR xMin xMax yMin yMax zMin zMax : ℚ)
    (solid : Option (ℚ × ℚ × ℚ)) :
    (parsePositions buf h maxPoints q).length = 3 * loadedPoints buf h maxPoints ∧
    (parseColors buf h maxPoints).length = 3 * loadedPoints buf h maxPoints ∧
    (applySliceFilter origPos origCol cosR sinR xMin xMax yMin yMax zMin zMax
        solid).1.length =
      (applySliceFilter origPos origCol cosR sinR xMin xMax yMin yMax zMin zMax
        solid).2.length ∧
    (applySliceRestore origPos origCol solid).1.length =
      (applySliceRestore origPos origCol solid).2.length := by
  refine ⟨?_, ?_, ?_, ?_⟩
  · rw [parsePositions, length_flatMap_triple, loadedPoints, projectPoints]
    simp
  · rw [parseColors, length_flatMap_triple, loadedPoints, pointColors]
    simp
  · simp [applySliceFilter]
  · cases solid <;> simp [applySliceRestore, hpar]

theorem ceilDiv_zero (m : Nat) : ceilDiv 0 m = 0 := by
  rcases m with _ | m
  · rfl
  · exact Nat.div_eq_of_lt (by omega)

theorem ceilDiv_sub_step (d step : Nat) (hstep : 0 < step) (hd : 0 < d) :
    ceilDiv d step = ceilDiv (d - step) step + 1 := by
  rcases le_or_lt step d with hsd | hsd
  · unfold ceilDiv
    rw [show d + step - 1 = (d - step + step - 1) + step by omega,
      Nat.add_div_right _ hstep]
  · rw [show d - step = 0 by omega, ceilDiv_zero]
    unfold ceilDiv
    exact Nat.div_eq_of_lt_le (by omega) (by omega)

theorem forLoopIndices_eq (step : Nat) (hstep : 0 < step) :
    ∀ (fuel i total : Nat), total - i ≤ fuel →
      forLoopIndices fuel i step total =
        (List.range (ceilDiv (total - i) step)).map (fun j => i + j * step) := by
  intro fuel
  induction fuel with
  | zero =>
    intro i total hf
    rw [forLoopIndices, show total - i = 0 by omega, ceilDiv_zero]
    simp
  | succ fuel ih =>
    intro i total hf
    rw [forLoopIndices]
    by_cases hi : i < total
    · rw [if_pos hi, ih (i + step) total (by omega),
        show total - (i + step) = total - i - step by omega,
        ceilDiv_sub_step (total - i) step hstep (by omega),
        List.range_succ_eq_map, List.map_cons, List.map_map]
      congr 1
      · omega
      · apply List.map_congr_left
        intro a _
        simp [Function.comp]
        ring
    · rw [if_neg hi, show total - i = 0 by omega, ceilDiv_zero]
      simp

theorem sampledIndices_eq (total step : Nat) (hstep : 0 < step) :
    sampledIndices total step =
      (List.range (ceilDiv total step)).map (fun j => j * step) := by
  rw [sampledIndices, forLoopIndices_eq step hstep total 0 total (by omega)]
  simp

theorem sampledIndices_mem_lt (total step : Nat) (hstep : 0 < step) :
    ∀ x ∈ sampledIndices total step, x < total := by
  intro x hx
  rw [sampledIndices_eq total step hstep] at hx
  obtain ⟨j, hj, rfl⟩ := List.mem_map.mp hx
  rw [List.mem_range] at hj
  by_cases ht : total = 0
  · subst ht; rw [ceilDiv_zero] at hj; omega
  · have hq : ceilDiv total step * step ≤ total + step - 1 := by
      unfold ceilDiv; exact Nat.div_mul_le_self _ _
    have h2 : j * step + step ≤ total + step - 1 := by
      calc j * step + step = (j + 1) * step := by ring
        _ ≤ ceilDiv total step * step := Nat.mul_le_mul_right _ hj
        _ ≤ total + step - 1 := hq
    omega

theorem takeWhile_of_all {α : Type} (p : α → Bool) :
    ∀ l : List α, (∀ a ∈ l, p a = true) → l.takeWhile p = l := by
  intro l
  induction l with
  | nil => intro _; rfl
  | cons a as ih =>
    intro hl
    rw [List.takeWhile_cons, if_pos (hl a (by simp)),
      ih fun b hb => hl b (by simp [hb])]

theorem takeWhile_middle {α : Type} (p : α → Bool) (l₁ l₂ : List α) (j : α)
    (h₁ : ∀ a ∈ l₁, p a = true) (hj : p j = false) :
    (l₁ ++ j :: l₂).takeWhile p = l₁ := by
  induction l₁ with
  | nil => simp [List.takeWhile_cons, hj]
  | cons a as ih =>
    rw [List.cons_append, List.takeWhile_cons, if_pos (h₁ a (by simp)),
      ih fun b hb => h₁ b (by simp [hb])]

theorem rawPointIndices_all (buf : List Nat) (h : ParsedHeader) (M : Nat)
    (hstep : 0 < sampleStep h.numberOfPoints M)
    (hlen : 12 ≤ h.pointDataRecordLength)
    (hbuf : h.offsetToPointData +
      h.numberOfPoints * h.pointDataRecordLength ≤ buf.length) :
    rawPointIndices buf h M =
      sampledIndices h.numberOfPoints (sampleStep h.numberOfPoints M) := by
  apply takeWhile_of_all
  intro i hi
  have hiN : i < h.numberOfPoints :=
    sampledIndices_mem_lt _ _ hstep i hi
  rw [decide_eq_true_iff]
  have h1 : i * h.pointDataRecordLength + h.pointDataRecordLength ≤
      h.numberOfPoints * h.pointDataRecordLength := by
    calc i * h.pointDataRecordLength + h.pointDataRecordLength
        = (i + 1) * h.pointDataRecordLength := by ring
      _ ≤ h.numberOfPoints * h.pointDataRecordLength :=
        Nat.mul_le_mul_right _ (by omega)
  omega

/-- Claim C4: with the whole point-record array inside the buffer, the
stride is `ceil(N/M)` when `N > M` (else 1), the retained record
indices are the arithmetic progression `0, step, 2·step, …`, and
exactly `ceil(N / ceil(N/M))` points are retained (all `N` when
`N ≤ M`). -/
theorem subsamplingStride_c4 (buf : List Nat) (h : ParsedHeader) (M : Nat)
    (hM : 0 < M) (hlen : 12 ≤ h.pointDataRecordLength)
    (hbuf : h.offsetToPointData +
      h.numberOfPoints * h.pointDataRecordLength ≤ buf.length) :
    (M < h.numberOfPoints →
      sampleStep h.numberOfPoints M = ceilDiv h.numberOfPoints M ∧
      rawPointIndices buf h M =
        (List.range (ceilDiv h.numberOfPoints (ceilDiv h.numberOfPoints M))).map
          (fun j => j * ceilDiv h.numberOfPoints M) ∧
      loadedPoints buf h M =
        ceilDiv h.numberOfPoints (ceilDiv h.numberOfPoints M)) ∧
    (h.numberOfPoints ≤ M →
      sampleStep h.numberOfPoints M = 1 ∧
      rawPointIndices buf h M = List.range h.numberOfPoints ∧
      loadedPoints buf h M = h.numberOfPoints) := by
  constructor
  · intro hMN
    have hse : sampleStep h.numberOfPoints M = ceilDiv h.numberOfPoints M := by
      rw [sampleStep, if_pos hMN]
    have hstep : 0 < sampleStep h.numberOfPoints M := by
      rw [hse]
      unfold ceilDiv
      rw [Nat.pos_iff_ne_zero]
      intro h0
      have := Nat.one_le_div_iff hM (a := h.numberOfPoints + M - 1)
      omega
    have hraw := rawPointIndices_all buf h M hstep hlen hbuf
    refine ⟨hse, ?_, ?_⟩
    · rw [hraw, sampledIndices_eq _ _ hstep, hse]
    · rw [loadedPoints, rawPoints, List.length_map, hraw,
        sampledIndices_eq _ _ hstep, hse, List.length_map, List.length_range]
  · intro hNM
    have hse : sampleStep h.numberOfPoints M = 1 := by
      rw [sampleStep, if_neg (by omega)]
    have hstep : 0 < sampleStep h.numberOfPoints M := by rw [hse]; omega
    have hraw := rawPointIndices_all buf h M hstep hlen hbuf
    have hone : ceilDiv h.numberOfPoints 1 = h.numberOfPoints := by
      unfold ceilDiv; omega
    refine ⟨hse, ?_, ?_⟩
    · rw [hraw, sampledIndices_eq _ _ hstep, hse, hone]
      simp
    · rw [loadedPoints, rawPoints, List.length_map, hraw,
        sampledIndices_eq _ _ hstep, List.length_map, List.length_range, hse, hone]

/-- Witness for C4: N = 10 points at M = 3 gives stride ceil(10/3) = 4,
retained indices [0, 4, 8], and ceil(10/4) = 3 loaded points. -/
theorem subsamplingStride_c4_witness :
    sampleStep 10 3 = 4 ∧
    rawPointIndices (List.replicate 120 0) ⟨0, 0, 12, 10, 1, 1, 1, 0, 0, 0⟩ 3 =
      [0, 4, 8] ∧
    loadedPoints (List.replicate 120 0) ⟨0, 0, 12, 10, 1, 1, 1, 0, 0, 0⟩ 3 = 3 := by
  have h := (subsamplingStride_c4 (List.replicate 120 0)
    ⟨0, 0, 12, 10, 1, 1, 1, 0, 0, 0⟩ 3 (by decide) (by decide) (by decide)).1
    (by decide)
  refine ⟨by decide, ?_, ?_⟩
  · rw [h.2.1]; decide
  · rw [h.2.2]; decide

/-- Claim C8: when the sampled indices split as `l₁ ++ j :: l₂` with
every record in `l₁` fitting in the buffer and record `j` straddling
its end, iteration stops exactly at `j`: the retained indices are `l₁`,
the parse still returns a successful result, and the output buffers
cover exactly the `l₁.length` points decoded before the break. -/
theorem truncatedFileTolerance_c8 (buf : List Nat) (sx sy sz ox oy oz q : ℚ)
    (maxPoints : Nat) (h : ParsedHeader) (l₁ l₂ : List Nat) (j : Nat)
    (hh : h = parseHeaderOf buf sx sy sz ox oy oz)
    (hsig : checkSignature buf = true)
    (hsplit : sampledIndices h.numberOfPoints
      (sampleStep h.numberOfPoints maxPoints) = l₁ ++ j :: l₂)
    (hok : ∀ i ∈ l₁,
      h.offsetToPointData + i * h.pointDataRecordLength + 12 ≤ buf.length)
    (hbad : buf.length <
      h.offsetToPointData + j * h.pointDataRecordLength + 12) :
    rawPointIndices buf h maxPoints = l₁ ∧
    loadedPoints buf h maxPoints = l₁.length ∧
    parseLAS buf sx sy sz ox oy oz maxPoints q =
      .ok (parsePositions buf h maxPoints q, parseColors buf h maxPoints) ∧
    (parsePositions buf h maxPoints q).length = 3 * l₁.length ∧
    (parseColors buf h maxPoints).length = 3 * l₁.length := by
  have hfi : rawPointIndices buf h maxPoints = l₁ := by
    rw [rawPointIndices, hsplit]
    exact takeWhile_middle _ _ _ _
      (fun a ha => decide_eq_true_iff.mpr (hok a ha))
      (decide_eq_false_iff_not.mpr (by omega))
  refine ⟨hfi, ?_, ?_, ?_, ?_⟩
  · rw [loadedPoints, rawPoints, List.length_map, hfi]
  · rw [parseLAS, if_pos hsig, ← hh]
  · rw [parsePositions, length_flatMap_triple, projectPoints, List.length_map,
      rawPoints, List.length_map, hfi]
  · rw [parseColors, length_flatMap_triple, pointColors, List.length_map,
      rawPoints, List.length_map, hfi]

set_option maxRecDepth 4000 in
/-- Witness for C8: in `c8buf` (5 records declared, buffer truncated
after record 1's coordinates) iteration keeps indices [0, 1] and the
parse succeeds with 2 points. -/
theorem truncatedFileTolerance_c8_witness :
    rawPointIndices c8buf (parseHeaderOf c8buf 1 1 1 0 0 0) 2000000 = [0, 1] ∧
    loadedPoints c8buf (parseHeaderOf c8buf 1 1 1 0 0 0) 2000000 = 2 := by
  have h := truncatedFileTolerance_c8 c8buf 1 1 1 0 0 0 1 2000000
    (parseHeaderOf c8buf 1 1 1 0 0 0) [0, 1] [3, 4] 2 rfl (by decide)
    (by decide) (by decide) (by decide)
  exact ⟨h.1, h.2.1⟩

/-- Claim C9: a sampled point whose color block would extend past the
buffer end gets the elevation-gradient color — the bounds check fails,
the gradient branch runs, and the value depends only on the point's
normalized elevation, never on buffer bytes (so no out-of-bounds read
can occur); the color still lands in the parser's output color list. -/
theorem colorBlockBoundsSafety_c9 (buf : List Nat) (h : ParsedHeader)
    (maxPoints rgbOff : Nat) (p : RawPoint)
    (hfmt : formatRGBOffset h.pointDataRecordFormat = some rgbOff)
    (hp : p ∈ rawPoints buf h maxPoints)
    (hoob : buf.length < p.offset + rgbOff + 6) :
    pointColorAt buf h (rawPoints buf h maxPoints) p =
      elevationColor ((p.z - minZOf (rawPoints buf h maxPoints)) /
        zRangeOf (rawPoints buf h maxPoints)) ∧
    pointColorAt buf h (rawPoints buf h maxPoints) p ∈
      pointColors buf h maxPoints ∧
    ∀ buf' : List Nat, buf'.length = buf.length →
      pointColor buf' (some rgbOff) p.offset
        ((p.z - minZOf (rawPoints buf h maxPoints)) /
          zRangeOf (rawPoints buf h maxPoints)) =
      elevationColor ((p.z - minZOf (rawPoints buf h maxPoints)) /
        zRangeOf (rawPoints buf h maxPoints)) := by
  have key : ∀ buf' : List Nat, buf'.length = buf.length →
      pointColor buf' (some rgbOff) p.offset
        ((p.z - minZOf (rawPoints buf h maxPoints)) /
          zRangeOf (rawPoints buf h maxPoints)) =
      elevationColor ((p.z - minZOf (rawPoints buf h maxPoints)) /
        zRangeOf (rawPoints buf h maxPoints)) := by
    intro buf' hlen
    rw [pointColor]
    simp only [hlen]
    rw [if_neg (by omega)]
  refine ⟨?_, ?_, key⟩
  · rw [pointColorAt, hfmt]
    exact key buf rfl
  · rw [pointColors]
    exact List.mem_map_of_mem _ hp

/-- Witness for C9: a single format-2 point whose 12 coordinate bytes
fill the whole 12-byte buffer, so its color block (offset 20, 6 bytes)
is out of bounds; the assigned color is the gradient at t = 0. -/
theorem colorBlockBoundsSafety_c9_witness :
    pointColorAt (List.replicate 12 0) ⟨0, 2, 20, 1, 1, 1, 1, 0, 0, 0⟩
      (rawPoints (List.replicate 12 0) ⟨0, 2, 20, 1, 1, 1, 1, 0, 0, 0⟩ 2000000)
      (decodeRawPoint (List.replicate 12 0) ⟨0, 2, 20, 1, 1, 1, 1, 0, 0, 0⟩ 0) =
    elevationColor
      (((decodeRawPoint (List.replicate 12 0)
            ⟨0, 2, 20, 1, 1, 1, 1, 0, 0, 0⟩ 0).z -
          minZOf (rawPoints (List.replicate 12 0)
            ⟨0, 2, 20, 1, 1, 1, 1, 0, 0, 0⟩ 2000000)) /
        zRangeOf (rawPoints (List.replicate 12 0)
          ⟨0, 2, 20, 1, 1, 1, 1, 0, 0, 0⟩ 2000000)) :=
  (colorBlockBoundsSafety_c9 (List.replicate 12 0)
    ⟨0, 2, 20, 1, 1, 1, 1, 0, 0, 0⟩ 2000000 20
    (decodeRawPoint (List.replicate 12 0) ⟨0, 2, 20, 1, 1, 1, 1, 0, 0, 0⟩ 0) rfl
    (by
      rw [rawPoints, show rawPointIndices (List.replicate 12 0)
        ⟨0, 2, 20, 1, 1, 1, 1, 0, 0, 0⟩ 2000000 = [0] from by decide]
      exact List.mem_map_of_mem _ (by decide))
    (by decide)).1

theorem writePointRecords_lt_off (base : Nat → Nat) (off len : Nat)
    (records : Nat → List Nat) (k j : Nat) (hj : j < off) :
    writePointRecords base off len records k j = base j := by
  induction k with
  | zero => rfl
  | succ k ih =>
    rw [writePointRecords, writeBytes]
    rw [if_neg, ih]
    rintro ⟨h1, -⟩
    exact absurd (Nat.le_trans (Nat.le_add_right off (k * len)) h1)
      (Nat.not_le.mpr hj)

theorem writePointRecords_at (base : Nat → Nat) (off len : Nat)
    (records : Nat → List Nat) :
    ∀ k, (∀ i, i < k → (records i).length = len) →
      ∀ i j, i < k → j < len →
        writePointRecords base off len records k (off + i * len + j) =
          (records i).getD j 0 := by
  intro k
  induction k with
  | zero => intro _ i j hi _; omega
  | succ k ih =>
    intro hrec i j hi hj
    rw [writePointRecords, writeBytes]
    rcases Nat.lt_or_ge i k with hik | hik
    · rw [if_neg, ih (fun m hm => hrec m (by omega)) i j hik hj]
      rintro ⟨h1, -⟩
      have hlt : i * len + j < k * len := by
        calc i * len + j < i * len + len := by omega
          _ = (i + 1) * len := by ring
          _ ≤ k * len := Nat.mul_le_mul_right _ (by omega)
      omega
    · have hik' : i = k := by omega
      subst hik'
      rw [if_pos ⟨Nat.le_add_right _ _, by rw [hrec i (by omega)]; omega⟩]
      congr 1
      omega

/-- Claim C3: the decompressed output reproduces the input header bytes
verbatim on `[0, offsetToPointData)` except byte 104, which is the
input format byte with its top two bits cleared (`& 0x3F`, equivalently
`mod 64`), and engine record `i` occupies bytes
`[offsetToPointData + i*len, offsetToPointData + (i+1)*len)` in order. -/
theorem decompressionLayout_c3 (buf : List Nat) (count len : Nat)
    (records : Nat → List Nat)
    (hrec : ∀ i, i < count → (records i).length = len)
    (hoff : 105 ≤ readU32 buf 96) :
    (∀ j, j < readU32 buf 96 → j ≠ 104 →
      decompressLazBytes buf count len records j = byteAt buf j) ∧
    decompressLazBytes buf count len records 104 = byteAt buf 104 &&& 63 ∧
    decompressLazBytes buf count len records 104 = byteAt buf 104 % 64 ∧
    (∀ i j, i < count → j < len →
      decompressLazBytes buf count len records
          (readU32 buf 96 + i * len + j) =
        (records i).getD j 0) := by
  have hhead : ∀ j, j < readU32 buf 96 →
      writeBytes (fun _ => 0) 0 (buf.take (readU32 buf 96)) j = byteAt buf j := by
    intro j hj
    rw [writeBytes]
    rcases Nat.lt_or_ge j buf.length with hjl | hjl
    · rw [if_pos ⟨Nat.zero_le _, by simpa using lt_min hj hjl⟩]
      rw [byteAt, List.getD_eq_getElem?_getD, List.getD_eq_getElem?_getD,
        Nat.sub_zero, List.getElem?_take, if_pos hj]
    · have hcond : ¬(0 ≤ j ∧ j < 0 + (buf.take (readU32 buf 96)).length) := by
        rintro ⟨-, h2⟩
        simp only [Nat.zero_add, List.length_take] at h2
        omega
      rw [if_neg hcond, byteAt, List.getD_eq_getElem?_getD,
        List.getElem?_eq_none (by omega)]
      rfl
  have hb104 : decompressLazBytes buf count len records 104 =
      byteAt buf 104 &&& 63 := by
    rw [decompressLazBytes, writePointRecords_lt_off _ _ _ _ _ _ (by omega)]
    rw [if_pos rfl, hhead 104 (by omega)]
  refine ⟨?_, hb104, ?_, ?_⟩
  · intro j hj hj104
    rw [decompressLazBytes, writePointRecords_lt_off _ _ _ _ _ _ hj]
    simp only [if_neg hj104]
    exact hhead j hj
  · rw [hb104]
    exact Nat.and_pow_two_sub_one_eq_mod (byteAt buf 104) 6
  · intro i j hi hj
    rw [decompressLazBytes]
    exact writePointRecords_at _ _ _ _ count hrec i j hi hj

/-- Witness for C3: a 120-byte container with point data at offset 110
and format byte 195 (0b11000011), decompressed into two 3-byte records;
byte 100 keeps its header value 9, byte 104 becomes 195 & 63 = 3, and
record 1's byte 2 lands at offset 110 + 1·3 + 2. -/
theorem decompressionLayout_c3_witness :
    decompressLazBytes (((List.replicate 120 0).set 96 110).set 104 195) 2 3
        (fun i => [i + 1, i + 2, i + 3]) 100 = 0 ∧
    decompressLazBytes (((List.replicate 120 0).set 96 110).set 104 195) 2 3
        (fun i => [i + 1, i + 2, i + 3]) 104 = 3 ∧
    decompressLazBytes (((List.replicate 120 0).set 96 110).set 104 195) 2 3
        (fun i => [i + 1, i + 2, i + 3]) (110 + 1 * 3 + 2) = 4 := by
  have h := decompressionLayout_c3 (((List.replicate 120 0).set 96 110).set 104 195)
    2 3 (fun i => [i + 1, i + 2, i + 3]) (by decide) (by decide)
  refine ⟨?_, ?_, ?_⟩
  · have h100 := h.1 100 (by decide) (by decide)
    rw [h100]; decide
  · rw [h.2.2.1]; decide
  · have hr := h.2.2.2 1 2 (by decide) (by decide)
    rw [show (110 : Nat) + 1 * 3 + 2 =
      readU32 (((List.replicate 120 0).set 96 110).set 104 195) 96 + 1 * 3 + 2
      from by decide, hr]
    rfl

theorem affine_min_mono (c k : ℚ) (hk : 0 ≤ k) (a b : ℚ) :
    (min a b - c) * k = min ((a - c) * k) ((b - c) * k) := by
  rcases le_total a b with h | h
  · rw [min_eq_left h,
      min_eq_left (mul_le_mul_of_nonneg_right (sub_le_sub_right h c) hk)]
  · rw [min_eq_right h,
      min_eq_right (mul_le_mul_of_nonneg_right (sub_le_sub_right h c) hk)]

theorem affine_max_mono (c k : ℚ) (hk : 0 ≤ k) (a b : ℚ) :
    (max a b - c) * k = max ((a - c) * k) ((b - c) * k) := by
  rcases le_total a b with h | h
  · rw [max_eq_right h,
      max_eq_right (mul_le_mul_of_nonneg_right (sub_le_sub_right h c) hk)]
  · rw [max_eq_left h,
      max_eq_left (mul_le_mul_of_nonneg_right (sub_le_sub_right h c) hk)]

theorem affine_max_anti (c k : ℚ) (hk : k ≤ 0) (a b : ℚ) :
    (max a b - c) * k = min ((a - c) * k) ((b - c) * k) := by
  rcases le_total a b with h | h
  · rw [max_eq_right h,
      min_eq_right (mul_le_mul_of_nonpos_right (sub_le_sub_right h c) hk)]
  · rw [max_eq_left h,
      min_eq_left (mul_le_mul_of_nonpos_right (sub_le_sub_right h c) hk)]

theorem affine_min_anti (c k : ℚ) (hk : k ≤ 0) (a b : ℚ) :
    (min a b - c) * k = max ((a - c) * k) ((b - c) * k) := by
  rcases le_total a b with h | h
  · rw [min_eq_left h,
      max_eq_left (mul_le_mul_of_nonpos_right (sub_le_sub_right h c) hk)]
  · rw [min_eq_right h,
      max_eq_right (mul_le_mul_of_nonpos_right (sub_le_sub_right h c) hk)]

theorem foldl_min_map_mono (f : ℚ → ℚ)
    (hf : ∀ a b : ℚ, f (min a b) = min (f a) (f b)) :
    ∀ (xs : List ℚ) (x : ℚ),
      List.foldl min (f x) (xs.map f) = f (List.foldl min x xs) := by
  intro xs
  induction xs with
  | nil => intro x; rfl
  | cons y ys ih =>
    intro x
    simp only [List.map_cons, List.foldl_cons]
    rw [← hf, ih]

theorem foldl_max_map_mono (f : ℚ → ℚ)
    (hf : ∀ a b : ℚ, f (max a b) = max (f a) (f b)) :
    ∀ (xs : List ℚ) (x : ℚ),
      List.foldl max (f x) (xs.map f) = f (List.foldl max x xs) := by
  intro xs
  induction xs with
  | nil => intro x; rfl
  | cons y ys ih =>
    intro x
    simp only [List.map_cons, List.foldl_cons]
    rw [← hf, ih]

theorem foldl_min_map_anti (f : ℚ → ℚ)
    (hf : ∀ a b : ℚ, f (max a b) = min (f a) (f b)) :
    ∀ (xs : List ℚ) (x : ℚ),
      List.foldl min (f x) (xs.map f) = f (List.foldl max x xs) := by
  intro xs
  induction xs with
  | nil => intro x; rfl
  | cons y ys ih =>
    intro x
    simp only [List.map_cons, List.foldl_cons]
    rw [← hf, ih]

theorem foldl_max_map_anti (f : ℚ → ℚ)
    (hf : ∀ a b : ℚ, f (min a b) = max (f a) (f b)) :
    ∀ (xs : List ℚ) (x : ℚ),
      List.foldl max (f x) (xs.map f) = f (List.foldl min x xs) := by
  intro xs
  induction xs with
  | nil => intro x; rfl
  | cons y ys ih =>
    intro x
    simp only [List.map_cons, List.foldl_cons]
    rw [← hf, ih]

theorem listMinMax_map_affine (c k : ℚ) (l : List ℚ) (hl : l ≠ []) :
    listMin (l.map fun t => (t - c) * k) + listMax (l.map fun t => (t - c) * k) =
      (listMin l - c) * k + (listMax l - c) * k := by
  cases l with
  | nil => exact absurd rfl hl
  | cons x xs =>
    rcases le_or_lt 0 k with hk | hk
    · simp only [List.map_cons, listMin, listMax]
      have h1 : List.foldl min ((x - c) * k) (List.map (fun t => (t - c) * k) xs) =
          (List.foldl min x xs - c) * k :=
        foldl_min_map_mono (fun t => (t - c) * k) (affine_min_mono c k hk) xs x
      have h2 : List.foldl max ((x - c) * k) (List.map (fun t => (t - c) * k) xs) =
          (List.foldl max x xs - c) * k :=
        foldl_max_map_mono (fun t => (t - c) * k) (affine_max_mono c k hk) xs x
      rw [h1, h2]
    · simp only [List.map_cons, listMin, listMax]
      have h1 : List.foldl min ((x - c) * k) (List.map (fun t => (t - c) * k) xs) =
          (List.foldl max x xs - c) * k :=
        foldl_min_map_anti (fun t => (t - c) * k) (affine_max_anti c k hk.le) xs x
      have h2 : List.foldl max ((x - c) * k) (List.map (fun t => (t - c) * k) xs) =
          (List.foldl min x xs - c) * k :=
        foldl_max_map_anti (fun t => (t - c) * k) (affine_min_anti c k hk.le) xs x
      rw [h1, h2]
      ring

/-- Claim C5: each projected position is East `(lon - centerLon) *
111320 * cos(centerLat in radians)`, North `(lat - centerLat) * 111320`,
Up `z - centerZ`, and recomputing the parser's own center quantity (the
per-axis midpoint of min and max, the "data's own centroid" that was
subtracted) on the projected output yields (0, 0, 0) on every axis, for
any value of the cosine factor. -/
theorem projectionCentersCloud_c5 (pts : List RawPoint) (q : ℚ)
    (hne : pts ≠ []) :
    projectPoints pts q = pts.map (fun pt =>
      ((pt.lon - centerLonOf pts) * (111320 * q),
       (pt.lat - centerLatOf pts) * 111320,
       pt.z - centerZOf pts)) ∧
    listMin ((projectPoints pts q).map fun v => v.1) +
      listMax ((projectPoints pts q).map fun v => v.1) = 0 ∧
    listMin ((projectPoints pts q).map fun v => v.2.1) +
      listMax ((projectPoints pts q).map fun v => v.2.1) = 0 ∧
    listMin ((projectPoints pts q).map fun v => v.2.2) +
      listMax ((projectPoints pts q).map fun v => v.2.2) = 0 := by
  have hmapne : pts.map RawPoint.lon ≠ [] := by
    cases pts with
    | nil => exact absurd rfl hne
    | cons p ps => simp
  have hmapne2 : pts.map RawPoint.lat ≠ [] := by
    cases pts with
    | nil => exact absurd rfl hne
    | cons p ps => simp
  have hmapne3 : pts.map RawPoint.z ≠ [] := by
    cases pts with
    | nil => exact absurd rfl hne
    | cons p ps => simp
  refine ⟨rfl, ?_, ?_, ?_⟩
  · have hx : (projectPoints pts q).map (fun v => v.1) =
        (pts.map RawPoint.lon).map
          (fun t => (t - centerLonOf pts) * (111320 * q)) := by
      simp only [projectPoints, List.map_map]
      rfl
    rw [hx, listMinMax_map_affine (centerLonOf pts) (111320 * q) _ hmapne]
    rw [centerLonOf]
    ring
  · have hy : (projectPoints pts q).map (fun v => v.2.1) =
        (pts.map RawPoint.lat).map
          (fun t => (t - centerLatOf pts) * 111320) := by
      simp only [projectPoints, List.map_map]
      rfl
    rw [hy, listMinMax_map_affine (centerLatOf pts) 111320 _ hmapne2]
    rw [centerLatOf]
    ring
  · have hz : (projectPoints pts q).map (fun v => v.2.2) =
        (pts.map RawPoint.z).map
          (fun t => (t - centerZOf pts) * 1) := by
      simp only [projectPoints, List.map_map]
      apply List.map_congr_left
      intro a _
      simp only [Function.comp_apply]
      ring
    rw [hz, listMinMax_map_affine (centerZOf pts) 1 _ hmapne3]
    rw [centerZOf]
    ring

/-- Witness for C5 at a concrete two-point set (lon 0 and 3, lat 0 and
1, elevation 0 and 5) with cosine factor 1: all three recomputed
midpoints of the projected output are zero. -/
theorem projectionCentersCloud_c5_witness :
    listMin ((projectPoints [⟨0, 0, 0, 0⟩, ⟨3, 1, 5, 0⟩] 1).map fun v => v.1) +
      listMax ((projectPoints [⟨0, 0, 0, 0⟩, ⟨3, 1, 5, 0⟩] 1).map fun v => v.1) = 0 ∧
    listMin ((projectPoints [⟨0, 0, 0, 0⟩, ⟨3, 1, 5, 0⟩] 1).map fun v => v.2.2) +
      listMax ((projectPoints [⟨0, 0, 0, 0⟩, ⟨3, 1, 5, 0⟩] 1).map fun v => v.2.2) = 0 := by
  have h := projectionCentersCloud_c5 [⟨0, 0, 0, 0⟩, ⟨3, 1, 5, 0⟩] 1
    (List.cons_ne_nil _ _)
  exact ⟨h.2.1, h.2.2.2⟩

/-- Witness for C10 at a one-point parallel buffer pair and a trivial
parse input. -/
theorem parallelBuffers_c10_witness :
    (parsePositions [] ⟨0, 0, 0, 0, 1, 1, 1, 0, 0, 0⟩ 10 1).length =
      3 * loadedPoints [] ⟨0, 0, 0, 0, 1, 1, 1, 0, 0, 0⟩ 10 ∧
    (applySliceRestore [((0 : ℚ), (0 : ℚ), (0 : ℚ))] [((1 : ℚ), (1 : ℚ), (1 : ℚ))]
        none).1.length =
      (applySliceRestore [((0 : ℚ), (0 : ℚ), (0 : ℚ))] [((1 : ℚ), (1 : ℚ), (1 : ℚ))]
        none).2.length := by
  have h := parallelBuffers_c10 [] ⟨0, 0, 0, 0, 1, 1, 1, 0, 0, 0⟩ 10 1
    [((0 : ℚ), (0 : ℚ), (0 : ℚ))] [((1 : ℚ), (1 : ℚ), (1 : ℚ))] (by decide)
    0 0 0 0 0 0 0 0 none
  exact ⟨h.1, h.2.2.2⟩

end LASViewer
